import Mathlib

set_option autoImplicit false

/-!
Verification of the core of `src/public_housing.py` (sghousing dashboard):
the concurrent period fetch/merge, the record normalization pipeline, the
`df_filter` query engine and the `update_text` summary aggregation, modelled
shallowly.  Machine floats are modelled as exact rationals; polars dataframes
are modelled as a column-name list (the schema) together with a list of rows;
operations that raise in polars (missing columns, duplicate column names from
`unnest`, strict casts) return `Except.error`.
-/

/-- Polars `Expr.str.replace pat rep` with a literal pattern: replaces only
the FIRST occurrence of `pat` in the character list (polars `replace` is not
`replace_all`). -/
def replFirst (pat rep : List Char) : List Char → List Char
  | [] => []
  | c :: cs =>
    if pat.isPrefixOf (c :: cs) then rep ++ (c :: cs).drop pat.length
    else c :: replFirst pat rep cs

/-- Lines 73-76: the remaining-lease simplification chain
`str.replace("s","").str.replace(" year","y").str.replace(" month","m")`. -/
def simpleLease (s : String) : String :=
  String.mk (replFirst (" month").toList ("m").toList
    (replFirst (" year").toList ("y").toList
      (replFirst ("s").toList ([]) s.toList)))

/-- Lines 77-80: flat-type label shortening chain. -/
def simpleFlat (s : String) : String :=
  String.mk (replFirst ("MULTI-GENERATION").toList ("MG").toList
    (replFirst ("EXECUTIVE").toList ("EC").toList
      (replFirst (" ROOM").toList ("RM").toList s.toList)))

/-- Line 81: storey-range normalization `str.replace(" TO ", "-")`. -/
def simpleStorey (s : String) : String :=
  String.mk (replFirst (" TO ").toList ("-").toList s.toList)

/-- One raw record as fetched from the API (lines 26-28, after the column
rename on lines 60-61); numeric fields already coerced to rationals. -/
structure Raw where
  month : String
  town : String
  flat : String
  block : String
  street_name : String
  storey_range : String
  area_sqm : ℚ
  lease_mths : String
  price : ℚ
  deriving DecidableEq

/-- The fixed square-metre to square-foot conversion constant 10.7639. -/
def ratConv : ℚ := 107639 / 10000

/-- One row of the in-memory table.  The physical record always carries the
two transient lease fields `year_count` and `mth_count`; whether they are
visible is governed by the dataframe schema (`DF.cols`). -/
structure Row where
  month : String
  town : String
  flat : String
  street_name : String
  storey_range : String
  lease_left : String
  area_sqm : ℚ
  area_sqft : ℚ
  price_sqm : ℚ
  price_sqft : ℚ
  price : ℚ
  year_count : Int
  mth_count : String
  deriving DecidableEq

/-- Lines 12-14: the canonical column order of the table. -/
def tableCols : List String :=
  ["month", "town", "flat", "street_name", "storey_range", "lease_left",
   "area_sqm", "area_sqft", "price_sqm", "price_sqft", "price"]

/-- A polars dataframe: a schema (list of column names) plus rows. -/
structure DF where
  cols : List String
  rows : List Row
  deriving DecidableEq

/-- Lines 63-82: the normalization/derivation pipeline applied to each raw
record (numeric casts, derived metrics, composed address, simplified lease
and flat strings).  The numeric fields carry the EXACT values of the
derivation formulas; the Float32 rounding the code's casts introduce is
modelled separately by `fl32FracE`/`price_sqm_f32` below and matters only
for the numeric-tolerance claim (none of the filter or summary claims
depends on rounding, since they only copy and compare these fields).  The
transient lease fields are initialised to dummies; they are not part of the
canonical schema. -/
def normalizeRecord (r : Raw) : Row :=
  { month := r.month
    town := r.town
    flat := simpleFlat r.flat
    street_name := ("BLK ") ++ r.block ++ (" ") ++ r.street_name
    storey_range := simpleStorey r.storey_range
    lease_left := simpleLease r.lease_mths
    area_sqm := r.area_sqm
    area_sqft := r.area_sqm * ratConv
    price_sqm := r.price / r.area_sqm
    price_sqft := r.price / (r.area_sqm * ratConv)
    price := r.price
    year_count := 0
    mth_count := ("") }

/-- Exponent normalization for IEEE binary32 rounding, halving direction:
while `n / d >= 2^24`, double `d` and raise the exponent (the denoted value
`(n / d) * 2^t` is preserved); fuel-bounded, all arithmetic in naturals. -/
def fl32ScaleDown : Nat → Nat → Nat → Int → Nat × Nat × Int
  | 0, n, d, t => (n, d, t)
  | fuel + 1, n, d, t =>
    if d * 16777216 ≤ n then fl32ScaleDown fuel n (d * 2) (t + 1)
    else (n, d, t)

/-- Exponent normalization, doubling direction: while `n / d < 2^23`,
double `n` and lower the exponent. -/
def fl32ScaleUp : Nat → Nat → Nat → Int → Nat × Nat × Int
  | 0, n, d, t => (n, d, t)
  | fuel + 1, n, d, t =>
    if n < d * 8388608 then fl32ScaleUp fuel (n * 2) d (t - 1)
    else (n, d, t)

/-- IEEE round-to-nearest, ties-to-even: round the significand `m0 + r/d`
(quotient `m0`, remainder `r`, divisor `d`) to an integer. -/
def roundEvenNat (m0 r d : Nat) : Nat :=
  if 2 * r < d then m0
  else if d < 2 * r then m0 + 1
  else if m0 % 2 = 0 then m0 else m0 + 1

/-- The IEEE binary32 (Float32) rounding of the positive value
`(n / d) * 2^t0`, in the normal range (fuel 300 covers the full binary32
exponent range), as a significand-exponent pair `(m, t)` denoting
`m * 2^t` with `2^23 ≤ m ≤ 2^24`.  Subnormal underflow and overflow are
outside the modelled range. -/
def fl32FracE (n d : Nat) (t0 : Int) : Nat × Int :=
  match fl32ScaleDown 300 n d t0 with
  | (n1, d1, t1) =>
    match fl32ScaleUp 300 n1 d1 t1 with
    | (n2, d2, t2) => (roundEvenNat (n2 / d2) (n2 % d2) d2, t2)

/-- The Float32 rounding of the plain fraction `n / d`. -/
def fl32Frac (n d : Nat) : Nat × Int := fl32FracE n d 0

/-- The rational value denoted by a significand-exponent pair. -/
def qOfSig (p : Nat × Int) : ℚ := (p.1 : ℚ) * 2 ^ p.2

/-- Lines 64-69 under faithful Float32 semantics for an integer price and
integer area as delivered by the API: both casts are exact (the values are
integers below 2^24) and the stored `price_sqm` is the correctly rounded
Float32 of their quotient (IEEE division is correctly rounded). -/
def price_sqm_f32 (price area : Nat) : ℚ :=
  qOfSig (fl32FracE (fl32Frac price 1).1 (fl32Frac area 1).1
    ((fl32Frac price 1).2 - (fl32Frac area 1).2))

/-- A concrete raw record (90 sqm, half a million dollars). -/
def rawT : Raw :=
  { month := ("2024-06"), town := ("BEDOK"), flat := ("4 ROOM"),
    block := ("101"), street_name := ("HAPPY AVE"), storey_range := ("01 TO 03"),
    area_sqm := 90, lease_mths := ("61 years 4 months"), price := 500000 }

/-- The scalar inputs of `df_filter` (lines 168-170), as supplied by the UI
callbacks; `none` models an unset (`None`) numeric input and an unset street
search is the empty string. -/
structure FilterArgs where
  month : Nat
  town : String
  flat : List String
  area_type : String
  max_area : Option ℚ
  min_area : Option ℚ
  price_type : String
  max_price : Option ℚ
  min_price : Option ℚ
  min_lease : Option Int
  max_lease : Option Int
  street_name : String
  selected_mths : List String
  deriving DecidableEq

/-- Lines 118-135: `convert_price_area`, resolving the user's price and area
dropdown labels into concrete column names. -/
def convert_price_area (price_type area_type : String) : String × String :=
  let a := if area_type = ("Sq M") then ("area_sqm") else ("area_sqft")
  let p :=
    if price_type = ("Price") then ("price")
    else if a = ("area_sqm") then ("price_sqm") else ("price_sqft")
  (p, a)

/-- Python truthiness of an optional numeric input: `None` and `0` are falsy. -/
def truthyQ : Option ℚ → Bool
  | none => false
  | some v => v != 0

/-- Python truthiness of an optional integer input: `None` and `0` are falsy. -/
def truthyI : Option Int → Bool
  | none => false
  | some v => v != 0

/-- Line 176: the Python slice `selected_mths[-int(month):]` (the trailing
`n` entries; `n = 0` yields the whole list, as `l[-0:] = l`). -/
def monthsSlice (n : Nat) (ms : List String) : List String :=
  if n = 0 then ms else ms.drop (ms.length - n)

/-- Uppercasing of a character list (`str.upper()` on the search input). -/
def upperChars (l : List Char) : List Char := l.map Char.toUpper

/-- Literal substring containment: the matching of one alternation-free
piece of a `str.contains` pattern against the column value. -/
def containsSub (hay pat : List Char) : Bool :=
  match hay with
  | [] => pat.isEmpty
  | c :: t => pat.isPrefixOf (c :: t) || containsSub t pat

/-- Characters the regex engine treats as literals and that street-name
searches realistically use: letters, digits and space. -/
def regexPlainChar (c : Char) : Bool := c.isAlphanum || c == ' '

/-- The modelled regex fragment for the street search: literal characters
possibly joined by the `|` alternation operator — exactly the usage the UI
documents on lines 433-434 ("Add | separator to include >1 street name").
Other regex metacharacters, and the invalid-pattern error path, are outside
the model; street-semantics theorems carry this as a hypothesis. -/
def plainAlt (pat : List Char) : Bool :=
  pat.all (fun c => regexPlainChar c || c == '|')

/-- Splitting an alternation pattern on `|`.  Empty alternatives are kept:
a trailing or doubled `|` yields the empty pattern, which matches every
value, as in the regex engine. -/
def splitBar : List Char → List (List Char)
  | [] => [[]]
  | c :: t =>
    if c = '|' then [] :: splitBar t
    else
      match splitBar t with
      | [] => [[c]]
      | a :: as => (c :: a) :: as

/-- Line 183's `str.contains`: polars interprets the pattern as a regex; on
the alternation-of-literals fragment a value matches when any
`|`-separated alternative occurs in it literally. -/
def strContains (hay pat : List Char) : Bool :=
  (splitBar pat).any (fun alt => containsSub hay alt)

/-- Numeric column access by name (`pl.col(...)` on a single row);
`year_count` is viewed as a rational for uniform comparisons. -/
def Row.getQ (r : Row) : String → ℚ
  | ("area_sqm") => r.area_sqm
  | ("area_sqft") => r.area_sqft
  | ("price") => r.price
  | ("price_sqm") => r.price_sqm
  | ("price_sqft") => r.price_sqft
  | ("year_count") => (r.year_count : ℚ)
  | _ => 0

/-- `df.filter(pl.col(c) <comparison>)`: raises if the column is absent from
the schema, otherwise keeps the rows satisfying the predicate. -/
def filterNum (d : DF) (c : String) (p : ℚ → Bool) : Except String DF :=
  if d.cols.contains c then
    .ok ⟨d.cols, d.rows.filter (fun r => p (r.getQ c))⟩
  else .error ("ColumnNotFoundError")

/-- `df.drop(...)`: raises if any named column is absent, otherwise removes
the named columns from the schema. -/
def dropCols (d : DF) (cs : List String) : Except String DF :=
  if cs.all (fun c => d.cols.contains c) then
    .ok ⟨d.cols.filter (fun c => !cs.contains c), d.rows⟩
  else .error ("ColumnNotFoundError")

/-- `str.split_exact("y", 1)`: the part before the first `y` and, when a `y`
occurs, everything after it (otherwise the second field is null). -/
def splitY : List Char → List Char × Option (List Char)
  | [] => ([], none)
  | c :: cs =>
    if c = 'y' then ([], some cs)
    else
      let r := splitY cs
      (c :: r.1, r.2)

/-- Decimal digit-string parse (the polars strict string-to-integer cast). -/
def parseNatChars (l : List Char) : Option Nat :=
  if l.isEmpty then none
  else if l.all Char.isDigit then
    some (l.foldl (fun acc c => acc * 10 + (c.toNat - 48)) 0)
  else none

/-- Signed decimal parse for the `year_count` cast. -/
def parseIntChars : List Char → Option Int
  | '-' :: t => (parseNatChars t).map (fun n => -(n : Int))
  | l => (parseNatChars l).map (fun n => (n : Int))

/-- The character list of the `year_count` field split from `lease_left`. -/
def yearChars (r : Row) : List Char := (splitY r.lease_left.toList).1

/-- Whether the strict Int32 cast of the split year part succeeds. -/
def goodLease (r : Row) : Bool := (parseIntChars (yearChars r)).isSome

/-- Fill the two transient lease fields of a row from `lease_left`. -/
def setLease (r : Row) : Row :=
  { r with
    year_count := (parseIntChars (yearChars r)).getD 0
    mth_count := String.mk (((splitY r.lease_left.toList).2).getD []) }

/-- Lines 185-192: the lease split (`split_exact` + `unnest`, which raises a
duplicate-name error when `year_count`/`mth_count` already exist in the
schema) followed by the strict `cast(pl.Int32)` of `year_count` (columnar:
raises when any value fails to parse). -/
def addLeaseCounts (d : DF) : Except String DF :=
  if d.cols.contains ("year_count") || d.cols.contains ("mth_count") then
    .error ("DuplicateError")
  else if d.rows.all goodLease then
    .ok ⟨d.cols ++ [("year_count"), ("mth_count")], d.rows.map setLease⟩
  else .error ("ComputeError")

/-- Lines 176-183: the month-window and flat-type narrowing, followed by the
optional street-name search — a regex `str.contains`, modelled on the
alternation-of-literals fragment by `strContains` (only the user input is
uppercased; the column is compared as stored). -/
def step12 (a : FilterArgs) (d : DF) : DF :=
  if a.street_name = ("") then
    ⟨d.cols,
     d.rows.filter (fun r =>
       (monthsSlice a.month a.selected_mths).contains r.month &&
         a.flat.contains r.flat)⟩
  else
    ⟨d.cols,
     (d.rows.filter (fun r =>
       (monthsSlice a.month a.selected_mths).contains r.month &&
         a.flat.contains r.flat)).filter (fun r =>
       strContains r.street_name.toList (upperChars a.street_name.toList))⟩

/-- Lines 194-198: a lease bound; both `max_lease` and `min_lease` apply the
same `year_count >= bound` comparison, guarded by Python truthiness. -/
def leaseBound (v : Option Int) (d : DF) : Except String DF :=
  if truthyI v then
    filterNum d ("year_count") (fun q => decide ((v.getD 0 : ℚ) ≤ q))
  else pure d

/-- The resolved price column of a filter specification. -/
def priceCol (a : FilterArgs) : String := (convert_price_area a.price_type a.area_type).1

/-- The resolved area column of a filter specification. -/
def areaCol (a : FilterArgs) : String := (convert_price_area a.price_type a.area_type).2

/-- Lines 202-206: the pair of columns dropped for the unused unit. -/
def droppedPair (a : FilterArgs) : List String :=
  if areaCol a = ("area_sqft") then [("price_sqm"), ("area_sqm")]
  else [("price_sqft"), ("area_sqft")]

/-- Lines 208-209: the exact-match town filter, skipped for "All". -/
def townStep (t : String) (d : DF) : DF :=
  if t = ("All") then d else ⟨d.cols, d.rows.filter (fun r => r.town == t)⟩

/-- A truthiness-guarded upper bound `pl.col(c) <= v` filter. -/
def boundMax (v : Option ℚ) (c : String) (d : DF) : Except String DF :=
  if truthyQ v then filterNum d c (fun q => decide (q ≤ v.getD 0)) else pure d

/-- A truthiness-guarded lower bound `pl.col(c) >= v` filter. -/
def boundMin (v : Option ℚ) (c : String) (d : DF) : Except String DF :=
  if truthyQ v then filterNum d c (fun q => decide (v.getD 0 ≤ q)) else pure d

/-- Lines 174-215 of `df_filter`: everything up to and including the price
bounds (month window, flat types, street search, lease split and bounds,
unit column drop, town filter, price bounds). -/
def dfPre (a : FilterArgs) (d : DF) : Except String DF := do
  let d3 ← addLeaseCounts (step12 a d)
  let d4 ← leaseBound a.max_lease d3
  let d5 ← leaseBound a.min_lease d4
  let d6 ← dropCols d5 (droppedPair a)
  let d7 := townStep a.town d6
  let d8 ← boundMax a.max_price (priceCol a) d7
  boundMin a.min_price (priceCol a) d8

/-- Lines 168-223: the whole `df_filter`.  Lines 217-218 evaluate the
`max_area` comparison but discard its result (`df.filter(...)` without
re-assignment), so only its error effect remains; the `min_area` bound is
applied to the undiscarded frame. -/
def df_filter (a : FilterArgs) (d : DF) : Except String DF := do
  let d9 ← dfPre a d
  let _ ← boundMax a.max_area (areaCol a) d9
  boundMin a.min_area (areaCol a) d9

/-- The scalar summary computed by `update_text`. -/
structure Summary where
  price_min : ℚ
  price_max : ℚ
  area_min : ℚ
  area_max : ℚ
  records : Nat
  deriving DecidableEq

/-- Python `min` over a nonempty series (junk on the empty list, which the
`records > 0` guard excludes). -/
def seriesMin : List ℚ → ℚ
  | [] => 0
  | x :: xs => xs.foldl min x

/-- Python `max` over a nonempty series. -/
def seriesMax : List ℚ → ℚ
  | [] => 0
  | x :: xs => xs.foldl max x

/-- Lines 557-613: the summary statistics of `update_text`.  `.ok none`
models the "no results" branch; the {Price / Area, Sq M} branch raises
`AttributeError` because line 580 calls the nonexistent method `to_serise`;
any other label combination leaves the locals unbound. -/
def update_text (rows : List Row) (area_type price_type : String) :
    Except String (Option Summary) :=
  if 0 < rows.length then
    if price_type = ("Price") ∧ area_type = ("Sq M") then
      .ok (some
        ⟨seriesMin (rows.map Row.price), seriesMax (rows.map Row.price),
         seriesMin (rows.map Row.area_sqm), seriesMax (rows.map Row.area_sqm),
         rows.length⟩)
    else if price_type = ("Price") ∧ area_type = ("Sq Feet") then
      .ok (some
        ⟨seriesMin (rows.map Row.price), seriesMax (rows.map Row.price),
         seriesMin (rows.map Row.area_sqft), seriesMax (rows.map Row.area_sqft),
         rows.length⟩)
    else if price_type = ("Price / Area") ∧ area_type = ("Sq M") then
      .error ("AttributeError")
    else if price_type = ("Price / Area") ∧ area_type = ("Sq Feet") then
      .ok (some
        ⟨seriesMin (rows.map Row.price_sqft), seriesMax (rows.map Row.price_sqft),
         seriesMin (rows.map Row.area_sqft), seriesMax (rows.map Row.area_sqft),
         rows.length⟩)
    else .error ("UnboundLocalError")
  else .ok none

/-- A concrete canonical row used by several witnesses (its derived fields
are those of a 90 sqm, 500000 dollar transaction, as exact rationals). -/
def rowT : Row :=
  { month := ("2024-06"), town := ("BEDOK"), flat := ("4RM"),
    street_name := ("BLK 101 HAPPY AVE"), storey_range := ("01-03"),
    lease_left := ("61y 4ms"), area_sqm := 90, area_sqft := 969,
    price_sqm := 5556, price_sqft := 516, price := 500000,
    year_count := 0, mth_count := ("") }

/-- A concrete one-row canonical table. -/
def tT : DF := ⟨tableCols, [rowT]⟩

/-- A concrete filter specification with no optional constraint set. -/
def argsT : FilterArgs :=
  { month := 6, town := ("All"), flat := [("4RM")], area_type := ("Sq M"),
    max_area := none, min_area := none, price_type := ("Price"),
    max_price := none, min_price := none, min_lease := none,
    max_lease := none, street_name := (""),
    selected_mths := [("2024-05"), ("2024-06")] }

/-- The schema produced by a successful `df_filter` run in Sq M mode. -/
def colsSqM : List String :=
  ["month", "town", "flat", "street_name", "storey_range", "lease_left",
   "area_sqm", "price_sqm", "price", "year_count", "mth_count"]

/-- The schema produced by a successful `df_filter` run in Sq Feet mode. -/
def colsSqFt : List String :=
  ["month", "town", "flat", "street_name", "storey_range", "lease_left",
   "area_sqft", "price_sqft", "price", "year_count", "mth_count"]

/-- A concrete row whose street name is stored in lower case. -/
def rowL : Row := { rowT with street_name := ("blk 2 happy ave") }

/-- A second concrete row, cheaper and smaller than `rowT`. -/
def rowU : Row :=
  { month := ("2024-05"), town := ("QUEENSTOWN"), flat := ("3RM"),
    street_name := ("BLK 7 MAIN ST"), storey_range := ("04-06"),
    lease_left := ("80y"), area_sqm := 60, area_sqft := 646,
    price_sqm := 5000, price_sqft := 465, price := 300000,
    year_count := 0, mth_count := ("") }

/-- Binding an `Except.ok` value just applies the continuation. -/
theorem ok_bind {α β : Type} (a : α) (f : α → Except String β) :
    (Except.ok a >>= f) = f a := rfl

/-- Binding an `Except.error` propagates the error. -/
theorem error_bind {α β : Type} (e : String) (f : α → Except String β) :
    ((Except.error e : Except String α) >>= f) = Except.error e := rfl

/-- Inversion of a successful `Except` bind. -/
theorem bind_eq_ok {α β : Type} {x : Except String α} {f : α → Except String β}
    {b : β} (h : (x >>= f) = Except.ok b) :
    ∃ a, x = Except.ok a ∧ f a = Except.ok b := by
  cases x with
  | error e => rw [error_bind] at h; exact absurd h (fun hh => Except.noConfusion hh)
  | ok a => rw [ok_bind] at h; exact ⟨a, rfl, h⟩

/-- Inversion of a successful `filterNum`. -/
theorem filterNum_ok {d : DF} {c : String} {p : ℚ → Bool} {e : DF}
    (h : filterNum d c p = Except.ok e) :
    e.cols = d.cols ∧ e.rows = d.rows.filter (fun r => p (r.getQ c)) := by
  unfold filterNum at h
  split at h
  · cases h; exact ⟨rfl, rfl⟩
  · exact absurd h (fun hh => Except.noConfusion hh)

/-- A successful lease bound keeps the schema and only discards rows. -/
theorem leaseBound_ok {v : Option Int} {d e : DF}
    (h : leaseBound v d = Except.ok e) :
    e.cols = d.cols ∧ ∀ r ∈ e.rows, r ∈ d.rows := by
  unfold leaseBound at h
  split at h
  · obtain ⟨hc, hr⟩ := filterNum_ok h
    exact ⟨hc, fun r hm => by rw [hr] at hm; exact List.mem_of_mem_filter hm⟩
  · cases h; exact ⟨rfl, fun r hm => hm⟩

/-- A successful `boundMax` keeps the schema and only discards rows. -/
theorem boundMax_ok {v : Option ℚ} {c : String} {d e : DF}
    (h : boundMax v c d = Except.ok e) :
    e.cols = d.cols ∧ ∀ r ∈ e.rows, r ∈ d.rows := by
  unfold boundMax at h
  split at h
  · obtain ⟨hc, hr⟩ := filterNum_ok h
    exact ⟨hc, fun r hm => by rw [hr] at hm; exact List.mem_of_mem_filter hm⟩
  · cases h; exact ⟨rfl, fun r hm => hm⟩

/-- A successful `boundMin` keeps the schema and only discards rows. -/
theorem boundMin_ok {v : Option ℚ} {c : String} {d e : DF}
    (h : boundMin v c d = Except.ok e) :
    e.cols = d.cols ∧ ∀ r ∈ e.rows, r ∈ d.rows := by
  unfold boundMin at h
  split at h
  · obtain ⟨hc, hr⟩ := filterNum_ok h
    exact ⟨hc, fun r hm => by rw [hr] at hm; exact List.mem_of_mem_filter hm⟩
  · cases h; exact ⟨rfl, fun r hm => hm⟩

/-- Inversion of a successful `dropCols`. -/
theorem dropCols_ok {d : DF} {cs : List String} {e : DF}
    (h : dropCols d cs = Except.ok e) :
    e.cols = d.cols.filter (fun c => !cs.contains c) ∧ e.rows = d.rows := by
  unfold dropCols at h
  split at h
  · cases h; exact ⟨rfl, rfl⟩
  · exact absurd h (fun hh => Except.noConfusion hh)

/-- Inversion of a successful `addLeaseCounts`. -/
theorem addLeaseCounts_ok {d e : DF} (h : addLeaseCounts d = Except.ok e) :
    e.cols = d.cols ++ [("year_count"), ("mth_count")] ∧
      e.rows = d.rows.map setLease := by
  unfold addLeaseCounts at h
  split at h
  · exact absurd h (fun hh => Except.noConfusion hh)
  · split at h
    · cases h; exact ⟨rfl, rfl⟩
    · exact absurd h (fun hh => Except.noConfusion hh)

/-- The town filter keeps the schema. -/
theorem townStep_cols (t : String) (d : DF) : (townStep t d).cols = d.cols := by
  unfold townStep; split <;> rfl

/-- The town filter only discards rows. -/
theorem townStep_sub (t : String) (d : DF) :
    ∀ r ∈ (townStep t d).rows, r ∈ d.rows := by
  unfold townStep; split
  · exact fun r hm => hm
  · exact fun r hm => List.mem_of_mem_filter hm

/-- The month/flat/street narrowing keeps the schema. -/
theorem step12_cols (a : FilterArgs) (d : DF) : (step12 a d).cols = d.cols := by
  unfold step12; split <;> rfl

/-- Reading the `year_count` column of a row. -/
theorem getQ_year (r : Row) : r.getQ ("year_count") = (r.year_count : ℚ) := rfl

/-- A set, nonzero `max_lease` filters by `year_count >= max_lease`. -/
theorem leaseBound_pred {w : Int} {d e : DF}
    (h : leaseBound (some w) d = Except.ok e) (hw : w ≠ 0) :
    ∀ r ∈ e.rows, w ≤ r.year_count := by
  unfold leaseBound at h
  split at h
  · obtain ⟨_, hr⟩ := filterNum_ok h
    intro r hm
    rw [hr] at hm
    have hp := List.of_mem_filter hm
    have hq : ((some w).getD 0 : ℚ) ≤ r.getQ ("year_count") := of_decide_eq_true hp
    rw [getQ_year] at hq
    exact_mod_cast hq
  · rename_i hcond
    exact absurd (bne_iff_ne.mpr hw) (by exact hcond)

/-- Schema of a successful `dfPre`: the canonical columns plus the two lease
fields, minus the dropped unit pair. -/
theorem dfPre_ok_cols {a : FilterArgs} {d e : DF} (h : d.cols = tableCols)
    (hp : dfPre a d = Except.ok e) :
    e.cols = (tableCols ++ [("year_count"), ("mth_count")]).filter
      (fun c => !(droppedPair a).contains c) := by
  unfold dfPre at hp
  obtain ⟨d3, h3, hb⟩ := bind_eq_ok hp
  obtain ⟨d4, h4, hc⟩ := bind_eq_ok hb
  obtain ⟨d5, h5, hd⟩ := bind_eq_ok hc
  obtain ⟨d6, h6, he⟩ := bind_eq_ok hd
  obtain ⟨d8, h8, hf⟩ := bind_eq_ok he
  have e3 : d3.cols = tableCols ++ [("year_count"), ("mth_count")] := by
    rw [(addLeaseCounts_ok h3).1, step12_cols, h]
  have e4 : d4.cols = d3.cols := (leaseBound_ok h4).1
  have e5 : d5.cols = d4.cols := (leaseBound_ok h5).1
  have e6 : d6.cols = d5.cols.filter (fun c => !(droppedPair a).contains c) :=
    (dropCols_ok h6).1
  have e8 : d8.cols = d6.cols := by rw [(boundMax_ok h8).1, townStep_cols]
  have ee : e.cols = d8.cols := (boundMin_ok hf).1
  rw [ee, e8, e6, e5, e4, e3]

/-- Schema of a successful full `df_filter` run. -/
theorem df_filter_ok_cols {a : FilterArgs} {d out : DF} (h : d.cols = tableCols)
    (hrun : df_filter a d = Except.ok out) :
    out.cols = (tableCols ++ [("year_count"), ("mth_count")]).filter
      (fun c => !(droppedPair a).contains c) := by
  unfold df_filter at hrun
  obtain ⟨d9, h9, hr⟩ := bind_eq_ok hrun
  obtain ⟨dA, hA, hB⟩ := bind_eq_ok hr
  rw [← dfPre_ok_cols h h9]
  exact (boundMin_ok hB).1

/-- Claim C4: in the filter engine, when `max_lease` is set (and nonzero, so
its truthiness guard fires), every surviving row satisfies
`year_count >= max_lease` — the same ">=" comparison used for `min_lease` —
rather than a "<=" upper bound. -/
theorem claimC4 (a : FilterArgs) (d : DF) (v : Int) (out : DF)
    (hv : a.max_lease = some v) (hv0 : v ≠ 0)
    (hrun : df_filter a d = Except.ok out) :
    ∀ r ∈ out.rows, v ≤ r.year_count := by
  unfold df_filter at hrun
  obtain ⟨d9, h9, hrest⟩ := bind_eq_ok hrun
  obtain ⟨dA, hA, hminA⟩ := bind_eq_ok hrest
  unfold dfPre at h9
  obtain ⟨d3, h3, h9a⟩ := bind_eq_ok h9
  obtain ⟨d4, h4, h9b⟩ := bind_eq_ok h9a
  obtain ⟨d5, h5, h9c⟩ := bind_eq_ok h9b
  obtain ⟨d6, h6, h9d⟩ := bind_eq_ok h9c
  obtain ⟨d8, h8, h9e⟩ := bind_eq_ok h9d
  rw [hv] at h4
  intro r hr
  have hr9 : r ∈ d9.rows := (boundMin_ok hminA).2 r hr
  have hr8 : r ∈ d8.rows := (boundMin_ok h9e).2 r hr9
  have hr7 : r ∈ (townStep a.town d6).rows := (boundMax_ok h8).2 r hr8
  have hr6 : r ∈ d6.rows := townStep_sub a.town d6 r hr7
  have hr5 : r ∈ d5.rows := by rw [← (dropCols_ok h6).2]; exact hr6
  have hr4 : r ∈ d4.rows := (leaseBound_ok h5).2 r hr5
  exact leaseBound_pred h4 hv0 r hr4

/-- Witness for claim C4: running the engine on the concrete table with
`max_lease = 50` keeps the 61-year row, and the theorem yields its bound. -/
theorem claimC4_witness : (50 : Int) ≤ (setLease rowT).year_count :=
  claimC4 { argsT with max_lease := some 50 } tT 50
    ⟨colsSqM, [setLease rowT]⟩ rfl (by decide) rfl
    (setLease rowT) (List.mem_singleton.mpr rfl)

/-- Claim C10: a numeric bound supplied as 0 is treated exactly like an
absent bound — the truthiness guard `if bound:` skips the comparison for
each of the six bounds, so the run equals the run with the bound unset. -/
theorem claimC10 (a : FilterArgs) (d : DF) :
    df_filter { a with max_lease := some 0 } d
        = df_filter { a with max_lease := none } d ∧
    df_filter { a with min_lease := some 0 } d
        = df_filter { a with min_lease := none } d ∧
    df_filter { a with max_price := some 0 } d
        = df_filter { a with max_price := none } d ∧
    df_filter { a with min_price := some 0 } d
        = df_filter { a with min_price := none } d ∧
    df_filter { a with max_area := some 0 } d
        = df_filter { a with max_area := none } d ∧
    df_filter { a with min_area := some 0 } d
        = df_filter { a with min_area := none } d :=
  ⟨rfl, rfl, rfl, rfl, rfl, rfl⟩

/-- The resolved area column as a plain conditional. -/
theorem areaCol_eq (a : FilterArgs) :
    areaCol a
      = (if a.area_type = ("Sq M") then ("area_sqm") else ("area_sqft")) := rfl

/-- The resolved area column always survives the unit-column drop. -/
theorem areaCol_mem_kept (a : FilterArgs) :
    ((tableCols ++ [("year_count"), ("mth_count")]).filter
      (fun c => !(droppedPair a).contains c)).contains (areaCol a) = true := by
  by_cases hA : a.area_type = ("Sq M")
  · have ha : areaCol a = ("area_sqm") := by rw [areaCol_eq, if_pos hA]
    have hdp : droppedPair a = [("price_sqft"), ("area_sqft")] := by
      unfold droppedPair
      rw [ha]
      decide
    rw [ha, hdp]
    decide
  · have ha : areaCol a = ("area_sqft") := by rw [areaCol_eq, if_neg hA]
    have hdp : droppedPair a = [("price_sqm"), ("area_sqm")] := by
      unfold droppedPair
      rw [ha]
      decide
    rw [ha, hdp]
    decide

/-- Claim C5: setting `max_area` does not change the engine's output — the
comparison on lines 217-218 is computed but its result is discarded, so the
returned view equals the one with `max_area` absent. -/
theorem claimC5 (a : FilterArgs) (d : DF) (v : ℚ) (h : d.cols = tableCols) :
    df_filter { a with max_area := some v } d
      = df_filter { a with max_area := none } d := by
  by_cases hv0 : v = 0
  · subst hv0; rfl
  · have hpre : dfPre { a with max_area := some v } d
        = dfPre { a with max_area := none } d := rfl
    unfold df_filter
    rw [hpre]
    cases hE : dfPre { a with max_area := none } d with
    | error e => rw [error_bind, error_bind]
    | ok d9 =>
      rw [ok_bind, ok_bind]
      change (boundMax (some v) (areaCol a) d9 >>= fun _ =>
          boundMin a.min_area (areaCol a) d9)
        = (boundMax none (areaCol a) d9 >>= fun _ =>
          boundMin a.min_area (areaCol a) d9)
      have hcols : d9.cols = (tableCols ++ [("year_count"), ("mth_count")]).filter
          (fun c => !(droppedPair a).contains c) := by
        have := dfPre_ok_cols h hE
        rw [this]
        change _ = (tableCols ++ _).filter (fun c => !(droppedPair a).contains c)
        rfl
      have hcont : d9.cols.contains (areaCol a) = true := by
        rw [hcols]; exact areaCol_mem_kept a
      have hvt : truthyQ (some v) = true := bne_iff_ne.mpr hv0
      unfold boundMax
      rw [hvt]
      unfold filterNum
      rw [hcont]
      rfl

/-- Witness for claim C5: at the concrete table, `max_area = 70` and absent
`max_area` give identical outputs. -/
theorem claimC5_witness :
    df_filter { argsT with max_area := some 70 } tT
      = df_filter { argsT with max_area := none } tT :=
  claimC5 argsT tT 70 rfl

/-- Claim C8 (amended): `df_filter` is not idempotent — re-running it with
the identical spec on its own output does not return the same row set but
fails: the lease split re-adds the `year_count`/`mth_count` columns, which
already exist in the filtered view, and `unnest` raises a duplicate-column
error. -/
theorem claimC8 (a : FilterArgs) (d out : DF) (h : d.cols = tableCols)
    (hrun : df_filter a d = Except.ok out) :
    df_filter a out = Except.error ("DuplicateError") := by
  have hcols := df_filter_ok_cols h hrun
  have hyc : (step12 a out).cols.contains ("year_count") = true := by
    rw [step12_cols, hcols]
    by_cases hA : areaCol a = ("area_sqft")
    · have hdp : droppedPair a = [("price_sqm"), ("area_sqm")] := by
        unfold droppedPair; rw [if_pos hA]
      rw [hdp]; decide
    · have hdp : droppedPair a = [("price_sqft"), ("area_sqft")] := by
        unfold droppedPair; rw [if_neg hA]
      rw [hdp]; decide
  have hadd : addLeaseCounts (step12 a out) = Except.error ("DuplicateError") := by
    unfold addLeaseCounts
    rw [hyc]
    simp
  unfold df_filter dfPre
  rw [hadd, error_bind, error_bind]

/-- Counterexample to claim C8 as stated: on a concrete one-row canonical
table, the first application succeeds but the second application of the
identical spec to the filtered view errors instead of returning the same
row set. -/
theorem claimC8_counterexample :
    df_filter argsT tT = Except.ok ⟨colsSqM, [setLease rowT]⟩ ∧
    df_filter argsT ⟨colsSqM, [setLease rowT]⟩
        = Except.error ("DuplicateError") ∧
    df_filter argsT ⟨colsSqM, [setLease rowT]⟩ ≠ df_filter argsT tT := by
  have h1 : df_filter argsT tT = Except.ok ⟨colsSqM, [setLease rowT]⟩ := rfl
  have h2 : df_filter argsT ⟨colsSqM, [setLease rowT]⟩
      = Except.error ("DuplicateError") := rfl
  exact ⟨h1, h2, fun hc => by
    rw [h1, h2] at hc
    exact Except.noConfusion hc⟩

/-- Witness for claim C8's amended theorem at the concrete table. -/
theorem claimC8_witness :
    df_filter argsT ⟨colsSqM, [setLease rowT]⟩
      = Except.error ("DuplicateError") :=
  claimC8 argsT tT ⟨colsSqM, [setLease rowT]⟩ rfl rfl

/-- `filterNum` on a zero-row frame returns it unchanged. -/
theorem filterNum_nil {C : List String} {c : String} (p : ℚ → Bool)
    (h : C.contains c = true) : filterNum ⟨C, []⟩ c p = Except.ok ⟨C, []⟩ := by
  unfold filterNum
  simp only [h]
  rfl

/-- A lease bound on a zero-row frame returns it unchanged. -/
theorem leaseBound_nil (v : Option Int) {C : List String}
    (h : C.contains ("year_count") = true) :
    leaseBound v ⟨C, []⟩ = Except.ok ⟨C, []⟩ := by
  unfold leaseBound
  split
  · exact filterNum_nil _ h
  · rfl

/-- An upper bound on a zero-row frame returns it unchanged. -/
theorem boundMax_nil (v : Option ℚ) {C : List String} {c : String}
    (h : C.contains c = true) : boundMax v c ⟨C, []⟩ = Except.ok ⟨C, []⟩ := by
  unfold boundMax
  split
  · exact filterNum_nil _ h
  · rfl

/-- A lower bound on a zero-row frame returns it unchanged. -/
theorem boundMin_nil (v : Option ℚ) {C : List String} {c : String}
    (h : C.contains c = true) : boundMin v c ⟨C, []⟩ = Except.ok ⟨C, []⟩ := by
  unfold boundMin
  split
  · exact filterNum_nil _ h
  · rfl

/-- The town filter on a zero-row frame returns it unchanged. -/
theorem townStep_nil (t : String) (C : List String) :
    townStep t ⟨C, []⟩ = ⟨C, []⟩ := by
  unfold townStep
  split <;> simp

/-- Claim C9: a filter spec whose flat-type set is empty yields a zero-row
view (never the unfiltered set of rows), and an empty input likewise yields
a zero-row view without error. -/
theorem claimC9 (a : FilterArgs) (d : DF) (h : d.cols = tableCols)
    (h0 : a.flat = [] ∨ d.rows = []) :
    ∃ out, df_filter a d = Except.ok out ∧ out.rows = [] := by
  have hrows : d.rows.filter (fun r =>
      (monthsSlice a.month a.selected_mths).contains r.month &&
        a.flat.contains r.flat) = [] := by
    rcases h0 with h0 | h0
    · rw [h0]
      simp
    · rw [h0]
      rfl
  have hstep : step12 a d = ⟨tableCols, []⟩ := by
    unfold step12
    split
    · rw [hrows, h]
    · rw [hrows, h]
      rfl
  have hpc : priceCol a = ("price") ∨ priceCol a = ("price_sqm") ∨
      priceCol a = ("price_sqft") := by
    by_cases hP : a.price_type = ("Price")
    · left
      simp [priceCol, convert_price_area, hP]
    · by_cases hA : a.area_type = ("Sq M")
      · right; left
        simp [priceCol, convert_price_area, hA, hP]
      · right; right
        simp [priceCol, convert_price_area, hA, hP]
  by_cases hA : a.area_type = ("Sq M")
  · have hdp : droppedPair a = [("price_sqft"), ("area_sqft")] := by
      simp [droppedPair, areaCol, convert_price_area, hA]
    have hac : areaCol a = ("area_sqm") := by
      simp [areaCol, convert_price_area, hA]
    have hpcm : colsSqM.contains (priceCol a) = true := by
      have hpc2 : priceCol a = ("price") ∨ priceCol a = ("price_sqm") := by
        rcases hpc with hx | hx | hx
        · exact Or.inl hx
        · exact Or.inr hx
        · exfalso
          by_cases hP : a.price_type = ("Price")
          · rw [show priceCol a = ("price") from by
              simp [priceCol, convert_price_area, hP]] at hx
            exact absurd hx (by decide)
          · rw [show priceCol a = ("price_sqm") from by
              simp [priceCol, convert_price_area, hA, hP]] at hx
            exact absurd hx (by decide)
      rcases hpc2 with hx | hx <;> rw [hx] <;> decide
    have e1 : addLeaseCounts ⟨tableCols, []⟩
        = Except.ok ⟨tableCols ++ [("year_count"), ("mth_count")], []⟩ := rfl
    have e2 : leaseBound a.max_lease ⟨tableCols ++ [("year_count"), ("mth_count")], []⟩
        = Except.ok ⟨tableCols ++ [("year_count"), ("mth_count")], []⟩ :=
      leaseBound_nil _ (by decide)
    have e3 : leaseBound a.min_lease ⟨tableCols ++ [("year_count"), ("mth_count")], []⟩
        = Except.ok ⟨tableCols ++ [("year_count"), ("mth_count")], []⟩ :=
      leaseBound_nil _ (by decide)
    have e4 : dropCols ⟨tableCols ++ [("year_count"), ("mth_count")], []⟩
        [("price_sqft"), ("area_sqft")] = Except.ok ⟨colsSqM, []⟩ := rfl
    have e5 : townStep a.town ⟨colsSqM, []⟩ = ⟨colsSqM, []⟩ := townStep_nil _ _
    have e6 : boundMax a.max_price (priceCol a) ⟨colsSqM, []⟩
        = Except.ok ⟨colsSqM, []⟩ := boundMax_nil _ hpcm
    have e7 : boundMin a.min_price (priceCol a) ⟨colsSqM, []⟩
        = Except.ok ⟨colsSqM, []⟩ := boundMin_nil _ hpcm
    have e8 : boundMax a.max_area ("area_sqm") ⟨colsSqM, []⟩
        = Except.ok ⟨colsSqM, []⟩ := boundMax_nil _ (by decide)
    have e9 : boundMin a.min_area ("area_sqm") ⟨colsSqM, []⟩
        = Except.ok ⟨colsSqM, []⟩ := boundMin_nil _ (by decide)
    refine ⟨⟨colsSqM, []⟩, ?_, rfl⟩
    simp only [df_filter, dfPre, hstep, hdp, hac, e1, ok_bind, e2, e3, e4, e5,
      e6, e7, e8, e9]
  · have hdp : droppedPair a = [("price_sqm"), ("area_sqm")] := by
      simp [droppedPair, areaCol, convert_price_area, hA]
    have hac : areaCol a = ("area_sqft") := by
      simp [areaCol, convert_price_area, hA]
    have hpcm : colsSqFt.contains (priceCol a) = true := by
      have hpc2 : priceCol a = ("price") ∨ priceCol a = ("price_sqft") := by
        rcases hpc with hx | hx | hx
        · exact Or.inl hx
        · exfalso
          by_cases hP : a.price_type = ("Price")
          · rw [show priceCol a = ("price") from by
              simp [priceCol, convert_price_area, hP]] at hx
            exact absurd hx (by decide)
          · rw [show priceCol a = ("price_sqft") from by
              simp [priceCol, convert_price_area, hA, hP]] at hx
            exact absurd hx (by decide)
        · exact Or.inr hx
      rcases hpc2 with hx | hx <;> rw [hx] <;> decide
    have e1 : addLeaseCounts ⟨tableCols, []⟩
        = Except.ok ⟨tableCols ++ [("year_count"), ("mth_count")], []⟩ := rfl
    have e2 : leaseBound a.max_lease ⟨tableCols ++ [("year_count"), ("mth_count")], []⟩
        = Except.ok ⟨tableCols ++ [("year_count"), ("mth_count")], []⟩ :=
      leaseBound_nil _ (by decide)
    have e3 : leaseBound a.min_lease ⟨tableCols ++ [("year_count"), ("mth_count")], []⟩
        = Except.ok ⟨tableCols ++ [("year_count"), ("mth_count")], []⟩ :=
      leaseBound_nil _ (by decide)
    have e4 : dropCols ⟨tableCols ++ [("year_count"), ("mth_count")], []⟩
        [("price_sqm"), ("area_sqm")] = Except.ok ⟨colsSqFt, []⟩ := rfl
    have e5 : townStep a.town ⟨colsSqFt, []⟩ = ⟨colsSqFt, []⟩ := townStep_nil _ _
    have e6 : boundMax a.max_price (priceCol a) ⟨colsSqFt, []⟩
        = Except.ok ⟨colsSqFt, []⟩ := boundMax_nil _ hpcm
    have e7 : boundMin a.min_price (priceCol a) ⟨colsSqFt, []⟩
        = Except.ok ⟨colsSqFt, []⟩ := boundMin_nil _ hpcm
    have e8 : boundMax a.max_area ("area_sqft") ⟨colsSqFt, []⟩
        = Except.ok ⟨colsSqFt, []⟩ := boundMax_nil _ (by decide)
    have e9 : boundMin a.min_area ("area_sqft") ⟨colsSqFt, []⟩
        = Except.ok ⟨colsSqFt, []⟩ := boundMin_nil _ (by decide)
    refine ⟨⟨colsSqFt, []⟩, ?_, rfl⟩
    simp only [df_filter, dfPre, hstep, hdp, hac, e1, ok_bind, e2, e3, e4, e5,
      e6, e7, e8, e9]

/-- Witness for claim C9: an empty flat-type set on the concrete table. -/
theorem claimC9_witness :
    ∃ out, df_filter { argsT with flat := [] } tT = Except.ok out ∧
      out.rows = [] :=
  claimC9 { argsT with flat := [] } tT rfl (Or.inl rfl)

/-- Counterexample to claim C6 as stated: the street containment test is not
case-insensitive on the column.  For a stored lower-case street name the
case-insensitive containment holds, yet the engine drops the row (it only
uppercases the user input and compares it against the column as stored). -/
theorem claimC6_counterexample :
    containsSub (upperChars ("blk 2 happy ave").toList)
        (upperChars ("happy").toList) = true ∧
    df_filter { argsT with street_name := ("happy") } ⟨tableCols, [rowL]⟩
      = Except.ok ⟨colsSqM, []⟩ := by
  exact ⟨by decide, rfl⟩

/-- Claim C6 (amended): a non-empty street filter keeps exactly the rows
whose stored `street_name` matches the UPPERCASED user pattern as a regex —
stated here on the alternation-of-literals regex fragment the UI documents
(`plainAlt`): any `|`-separated alternative occurring literally.  The test
is case-insensitive in the user input only, case-sensitive on the column.
Formally, the run factors through pre-restricting the table to the matching
rows. -/
theorem claimC6 (a : FilterArgs) (d : DF) (hs : a.street_name ≠ (""))
    (_hp : plainAlt a.street_name.toList = true) :
    df_filter a d
      = df_filter { a with street_name := ("") }
          ⟨d.cols, d.rows.filter (fun r =>
            strContains r.street_name.toList (upperChars a.street_name.toList))⟩ := by
  have hstep : step12 a d
      = step12 { a with street_name := ("") }
          ⟨d.cols, d.rows.filter (fun r =>
            strContains r.street_name.toList (upperChars a.street_name.toList))⟩ := by
    unfold step12
    rw [if_neg hs, if_pos rfl]
    exact congrArg (DF.mk d.cols) (List.filter_comm _ _ _)
  have hpre : dfPre a d
      = dfPre { a with street_name := ("") }
          ⟨d.cols, d.rows.filter (fun r =>
            strContains r.street_name.toList (upperChars a.street_name.toList))⟩ := by
    unfold dfPre
    rw [hstep]
    rfl
  unfold df_filter
  rw [hpre]
  rfl

/-- Witness for claim C6's amended theorem at a concrete table and an
alternation pattern ("happy|main" matches either street literally, with the
input uppercased). -/
theorem claimC6_witness :
    df_filter { argsT with street_name := ("happy|main") } tT
      = df_filter
          { { argsT with street_name := ("happy|main") } with street_name := ("") }
          ⟨tT.cols, tT.rows.filter (fun r =>
            strContains r.street_name.toList (upperChars ("happy|main").toList))⟩ :=
  claimC6 { argsT with street_name := ("happy|main") } tT (by decide) (by decide)

/-- Counterexample to claim C7 as stated: under faithful Float32 semantics
for lines 64-69, the record with integer price 500001 and area 90 sqm
stores `price_sqm` as the correctly rounded Float32 of 500001 / 90, namely
11377801 * 2^(-11) = 5555.56689453125, and
`|price_sqm * area_sqm - price| = 21/1024 ≈ 0.0205` exceeds the claimed
1/100 tolerance. -/
theorem claimC7_counterexample :
    price_sqm_f32 500001 90 = (11377801 : ℚ) * 2 ^ (-11 : Int) ∧
    (1 : ℚ) / 100 < |price_sqm_f32 500001 90 * 90 - 500001| := by
  have h3 : fl32FracE 16000032 11796480 12 = (11377801, -11) := by decide
  have hv : price_sqm_f32 500001 90 = (11377801 : ℚ) * 2 ^ (-11 : Int) := by
    unfold price_sqm_f32
    rw [show fl32Frac 500001 1 = (16000032, -5) from by decide,
      show fl32Frac 90 1 = (11796480, -17) from by decide]
    show qOfSig (fl32FracE 16000032 11796480 ((-5 : Int) - (-17 : Int))) = _
    rw [show ((-5 : Int) - (-17 : Int)) = 12 from by decide, h3]
    show ((11377801 : Nat) : ℚ) * 2 ^ (-11 : Int) = _
    norm_num
  refine ⟨hv, ?_⟩
  rw [hv]
  have he : (11377801 : ℚ) * 2 ^ (-11 : Int) * 90 - 500001 = 21 / 1024 := by
    rw [show ((2 : ℚ) ^ (-11 : Int)) = 1 / 2048 from by norm_num]
    norm_num
  rw [he, abs_of_pos (by norm_num)]
  norm_num

/-- Claim C7 (amended): the derivation formulas of lines 63-70 are exactly
consistent — in exact arithmetic, `area_sqft = area_sqm * 10.7639` and
`price_sqm * area_sqm = price = price_sqft * area_sqft` whenever
`area_sqm > 0`.  The original fixed absolute tolerances are not guaranteed
for the Float32-stored values: the counterexample exhibits a realistic
record whose correctly rounded Float32 `price_sqm` misses the 1/100
bound. -/
theorem claimC7 (r : Raw) (h : 0 < r.area_sqm) :
    (normalizeRecord r).area_sqft = r.area_sqm * ratConv ∧
    (normalizeRecord r).price_sqm * (normalizeRecord r).area_sqm = r.price ∧
    (normalizeRecord r).price_sqft * (normalizeRecord r).area_sqft = r.price := by
  have hne : r.area_sqm ≠ 0 := ne_of_gt h
  have hc : ratConv ≠ 0 := by norm_num [ratConv]
  refine ⟨rfl, ?_, ?_⟩
  · show r.price / r.area_sqm * r.area_sqm = r.price
    exact div_mul_cancel₀ _ hne
  · show r.price / (r.area_sqm * ratConv) * (r.area_sqm * ratConv) = r.price
    exact div_mul_cancel₀ _ (mul_ne_zero hne hc)

/-- Witness for claim C7's amended theorem at the concrete raw record. -/
theorem claimC7_witness :
    (0 : ℚ) < rawT.area_sqm ∧
    ((normalizeRecord rawT).area_sqft = rawT.area_sqm * ratConv ∧
     (normalizeRecord rawT).price_sqm * (normalizeRecord rawT).area_sqm
         = rawT.price ∧
     (normalizeRecord rawT).price_sqft * (normalizeRecord rawT).area_sqft
         = rawT.price) :=
  ⟨by norm_num [rawT], claimC7 rawT (by norm_num [rawT])⟩

/-- Claim C3: the summary is the plain scalar min/max of the resolved price
and area columns plus the record count for three of the four mode
combinations, but the {Price / Area, Sq M} branch raises: line 580 calls the
nonexistent series method `to_serise` (a typo for `to_series`), an
`AttributeError` on any non-empty view. -/
theorem claimC3 :
    update_text [rowT, rowU] ("Sq M") ("Price / Area")
        = Except.error ("AttributeError") ∧
    update_text [rowT, rowU] ("Sq M") ("Price")
        = Except.ok (some ⟨300000, 500000, 60, 90, 2⟩) ∧
    update_text [rowT, rowU] ("Sq Feet") ("Price")
        = Except.ok (some ⟨300000, 500000, 646, 969, 2⟩) ∧
    update_text [rowT, rowU] ("Sq Feet") ("Price / Area")
        = Except.ok (some ⟨465, 516, 646, 969, 2⟩) := by
  refine ⟨rfl, ?_, ?_, ?_⟩ <;> rfl

/-- A pattern whose head character does not occur in `l` cannot match inside
`l`, so replacement skips over it. -/
theorem replFirst_skip (p : Char) (ps rep : List Char) :
    ∀ l : List Char, p ∉ l → ∀ r : List Char,
      replFirst (p :: ps) rep (l ++ r) = l ++ replFirst (p :: ps) rep r := by
  intro l
  induction l with
  | nil => intro _ r; rfl
  | cons c t ih =>
    intro h r
    have hpc : (p == c) = false :=
      beq_eq_false_iff_ne.mpr (fun e => h (by rw [e]; exact List.mem_cons_self c t))
    have hpre : ((p :: ps).isPrefixOf (c :: (t ++ r))) = false := by
      show ((p == c) && ps.isPrefixOf (t ++ r)) = false
      rw [hpc, Bool.false_and]
    show replFirst (p :: ps) rep (c :: (t ++ r)) = c :: (t ++ replFirst (p :: ps) rep r)
    rw [replFirst, hpre]
    rw [if_neg (by simp)]
    exact congrArg (c :: ·) (ih (fun hm => h (List.mem_cons_of_mem c hm)) r)

/-- A pattern whose head character does not occur in `l` leaves `l` alone. -/
theorem replFirst_no_match (p : Char) (ps rep : List Char) (l : List Char)
    (h : p ∉ l) : replFirst (p :: ps) rep l = l := by
  have h2 := replFirst_skip p ps rep l h []
  rw [List.append_nil] at h2
  rw [h2, show replFirst (p :: ps) rep [] = [] from rfl, List.append_nil]

/-- Any list is a prefix of itself followed by anything. -/
theorem isPrefixOf_append_self : ∀ l t : List Char, l.isPrefixOf (l ++ t) = true
  | [], _ => by simp [List.isPrefixOf]
  | c :: l, t => by
    show ((c == c) && l.isPrefixOf (l ++ t)) = true
    rw [beq_self_eq_true, Bool.true_and]
    exact isPrefixOf_append_self l t

/-- Replacement fires immediately when the pattern is a prefix. -/
theorem replFirst_here (p : Char) (ps rep y : List Char) :
    replFirst (p :: ps) rep ((p :: ps) ++ y) = rep ++ y := by
  have hp : (p :: ps).isPrefixOf (p :: (ps ++ y)) = true := by
    rw [← List.cons_append]
    exact isPrefixOf_append_self (p :: ps) y
  rw [List.cons_append, replFirst, hp, if_pos rfl]
  have hd : (p :: (ps ++ y)).drop ((p :: ps).length) = y := by
    show (ps ++ y).drop ps.length = y
    exact List.drop_left ps y
  rw [hd]

/-- Replacement at an explicit split point whose left part is match-free. -/
theorem replFirst_match_at (p : Char) (ps rep x : List Char) (hx : p ∉ x)
    (y : List Char) :
    replFirst (p :: ps) rep (x ++ ((p :: ps) ++ y)) = x ++ (rep ++ y) := by
  rw [replFirst_skip p ps rep x hx, replFirst_here]

/-- Replacement when the pattern sits at the very end. -/
theorem replFirst_match_end (p : Char) (ps rep x : List Char) (hx : p ∉ x) :
    replFirst (p :: ps) rep (x ++ (p :: ps)) = x ++ rep := by
  have h := replFirst_match_at p ps rep x hx []
  simp only [List.append_nil] at h
  exact h

/-- Stepping over a single head character that does not start a match. -/
theorem replFirst_cons_of_neg (pat rep : List Char) (c : Char) (t : List Char)
    (h : pat.isPrefixOf (c :: t) = false) :
    replFirst pat rep (c :: t) = c :: replFirst pat rep t := by
  rw [replFirst, h]
  rw [if_neg (by simp)]

/-- A non-digit character does not occur in a digit string. -/
theorem digits_not_mem {l : List Char} (hd : ∀ c ∈ l, c.isDigit = true)
    {c₀ : Char} (hc : c₀.isDigit = false) : c₀ ∉ l :=
  fun hm => absurd (hd c₀ hm) (by rw [hc]; exact Bool.false_ne_true)

/-- Core of claim C1, month-free shape: on digit strings `N`, the lease
chain sends `N ++ " years"` to `N ++ "y"`. -/
theorem leaseCharsYears (N : List Char) (hN : ∀ c ∈ N, c.isDigit = true) :
    replFirst [' ', 'm', 'o', 'n', 't', 'h'] ['m']
      (replFirst [' ', 'y', 'e', 'a', 'r'] ['y']
        (replFirst ['s'] [] (N ++ [' ', 'y', 'e', 'a', 'r', 's'])))
    = N ++ ['y'] := by
  have hsN : 's' ∉ N := digits_not_mem hN (by decide)
  have hspN : ' ' ∉ N := digits_not_mem hN (by decide)
  have s1 : replFirst ['s'] [] (N ++ [' ', 'y', 'e', 'a', 'r', 's'])
      = N ++ [' ', 'y', 'e', 'a', 'r'] := by
    rw [replFirst_skip 's' [] [] N hsN]
    rw [show replFirst ['s'] [] [' ', 'y', 'e', 'a', 'r', 's']
        = [' ', 'y', 'e', 'a', 'r'] from rfl]
  have s2 : replFirst [' ', 'y', 'e', 'a', 'r'] ['y'] (N ++ [' ', 'y', 'e', 'a', 'r'])
      = N ++ ['y'] := replFirst_match_end ' ' ['y', 'e', 'a', 'r'] ['y'] N hspN
  have s3 : replFirst [' ', 'm', 'o', 'n', 't', 'h'] ['m'] (N ++ ['y']) = N ++ ['y'] := by
    apply replFirst_no_match
    intro hm
    rcases List.mem_append.mp hm with hm | hm
    · exact hspN hm
    · revert hm; decide
  rw [s1, s2, s3]

/-- Core of claim C1, months shape: on digit strings `N`, `M`, the lease
chain sends `N ++ " years " ++ M ++ " months"` to `N ++ "y " ++ M ++ "ms"` —
only the first `s`, first `" year"` and first `" month"` are rewritten. -/
theorem leaseCharsYearsMonths (N M : List Char) (hM0 : M ≠ [])
    (hN : ∀ c ∈ N, c.isDigit = true) (hM : ∀ c ∈ M, c.isDigit = true) :
    replFirst [' ', 'm', 'o', 'n', 't', 'h'] ['m']
      (replFirst [' ', 'y', 'e', 'a', 'r'] ['y']
        (replFirst ['s'] []
          (N ++ ([' ', 'y', 'e', 'a', 'r', 's', ' ']
            ++ (M ++ [' ', 'm', 'o', 'n', 't', 'h', 's'])))))
    = N ++ (['y', ' '] ++ (M ++ ['m', 's'])) := by
  obtain ⟨d, M', rfl⟩ : ∃ d M', M = d :: M' := by
    cases M with
    | nil => exact absurd rfl hM0
    | cons d M' => exact ⟨d, M', rfl⟩
  have hsN : 's' ∉ N := digits_not_mem hN (by decide)
  have hspN : ' ' ∉ N := digits_not_mem hN (by decide)
  have hspM : ' ' ∉ (d :: M') := digits_not_mem hM (by decide)
  have hdd : d.isDigit = true := hM d (List.mem_cons_self d M')
  have s1 : replFirst ['s'] []
      (N ++ ([' ', 'y', 'e', 'a', 'r', 's', ' ']
        ++ ((d :: M') ++ [' ', 'm', 'o', 'n', 't', 'h', 's'])))
      = N ++ ([' ', 'y', 'e', 'a', 'r']
        ++ ([' '] ++ ((d :: M') ++ [' ', 'm', 'o', 'n', 't', 'h', 's']))) := by
    rw [replFirst_skip 's' [] [] N hsN]
    rw [show ([' ', 'y', 'e', 'a', 'r', 's', ' ']
        ++ ((d :: M') ++ [' ', 'm', 'o', 'n', 't', 'h', 's']))
        = ([' ', 'y', 'e', 'a', 'r'] ++ ((['s'] : List Char)
          ++ ([' '] ++ ((d :: M') ++ [' ', 'm', 'o', 'n', 't', 'h', 's'])))) from rfl]
    rw [replFirst_match_at 's' [] [] [' ', 'y', 'e', 'a', 'r'] (by decide)
      ([' '] ++ ((d :: M') ++ [' ', 'm', 'o', 'n', 't', 'h', 's']))]
    rw [List.nil_append]
  have s2 : replFirst [' ', 'y', 'e', 'a', 'r'] ['y']
      (N ++ ([' ', 'y', 'e', 'a', 'r']
        ++ ([' '] ++ ((d :: M') ++ [' ', 'm', 'o', 'n', 't', 'h', 's']))))
      = N ++ (['y'] ++ ([' '] ++ ((d :: M') ++ [' ', 'm', 'o', 'n', 't', 'h', 's']))) :=
    replFirst_match_at ' ' ['y', 'e', 'a', 'r'] ['y'] N hspN
      ([' '] ++ ((d :: M') ++ [' ', 'm', 'o', 'n', 't', 'h', 's']))
  have hnp : ([' ', 'm', 'o', 'n', 't', 'h'] : List Char).isPrefixOf
      (' ' :: ((d :: M') ++ [' ', 'm', 'o', 'n', 't', 'h', 's'])) = false := by
    have hmd : ('m' == d) = false :=
      beq_eq_false_iff_ne.mpr
        (fun e => absurd hdd (by rw [← e]; decide))
    show ((' ' == ' ')
        && (('m' == d)
          && (['o', 'n', 't', 'h'] : List Char).isPrefixOf
            (M' ++ [' ', 'm', 'o', 'n', 't', 'h', 's']))) = false
    rw [hmd, Bool.false_and, Bool.and_false]
  have s3 : replFirst [' ', 'm', 'o', 'n', 't', 'h'] ['m']
      (N ++ (['y'] ++ ([' '] ++ ((d :: M') ++ [' ', 'm', 'o', 'n', 't', 'h', 's']))))
      = N ++ (['y'] ++ ([' '] ++ ((d :: M') ++ ['m', 's']))) := by
    rw [replFirst_skip ' ' ['m', 'o', 'n', 't', 'h'] ['m'] N hspN]
    rw [replFirst_skip ' ' ['m', 'o', 'n', 't', 'h'] ['m'] ['y'] (by decide)]
    rw [show (([' '] : List Char)
        ++ ((d :: M') ++ [' ', 'm', 'o', 'n', 't', 'h', 's']))
        = ' ' :: ((d :: M') ++ [' ', 'm', 'o', 'n', 't', 'h', 's']) from rfl]
    rw [replFirst_cons_of_neg [' ', 'm', 'o', 'n', 't', 'h'] ['m'] ' '
      ((d :: M') ++ [' ', 'm', 'o', 'n', 't', 'h', 's']) hnp]
    rw [replFirst_skip ' ' ['m', 'o', 'n', 't', 'h'] ['m'] (d :: M') hspM]
    rw [show replFirst [' ', 'm', 'o', 'n', 't', 'h'] ['m']
        [' ', 'm', 'o', 'n', 't', 'h', 's'] = ['m', 's'] from rfl]
    rfl
  rw [s1, s2, s3]
  rfl

/-- Claim C1 (amended): for digit strings N and M, the lease normalizer maps
"N years" to "Ny", but maps "N years M months" to "Ny M ms" — each
substitution replaces only the FIRST occurrence, so the "s" of "months" and
the space before M survive ("61 years 4 months" becomes "61y 4ms", not
"61y4m"). -/
theorem claimC1 (N M : List Char) (_hN0 : N ≠ []) (hM0 : M ≠ [])
    (hN : ∀ c ∈ N, c.isDigit = true) (hM : ∀ c ∈ M, c.isDigit = true) :
    simpleLease (String.mk (N ++ (" years").toList))
        = String.mk (N ++ ("y").toList) ∧
    simpleLease (String.mk (N ++ (" years ").toList ++ M ++ (" months").toList))
        = String.mk (N ++ ("y ").toList ++ M ++ ("ms").toList) := by
  constructor
  · exact congrArg String.mk (leaseCharsYears N hN)
  · have h2 := congrArg String.mk (leaseCharsYearsMonths N M hM0 hN hM)
    simp only [List.append_assoc]
    exact h2

/-- Counterexample to claim C1 as stated: "61 years 4 months" is rewritten
to "61y 4ms", not to "61y4m" (the substitutions replace first occurrences
only; the "s" of "months" and the space before "4" survive). -/
theorem claimC1_counterexample :
    simpleLease ("61 years 4 months") = ("61y 4ms") ∧
    simpleLease ("61 years 4 months") ≠ ("61y4m") := ⟨by decide, by decide⟩

/-- Witness for claim C1's amended theorem at N = "61", M = "4". -/
theorem claimC1_witness :
    simpleLease (String.mk (['6', '1'] ++ (" years").toList))
        = String.mk (['6', '1'] ++ ("y").toList) ∧
    simpleLease (String.mk (['6', '1'] ++ (" years ").toList
        ++ ['4'] ++ (" months").toList))
        = String.mk (['6', '1'] ++ ("y ").toList ++ ['4'] ++ ("ms").toList) :=
  claimC1 ['6', '1'] ['4'] (by decide) (by decide) (by decide) (by decide)
